import Mathlib

/-!
Verification of the business/review record service in `src/main.py`.

The service is a Flask app over Google Cloud Datastore. We embed it as pure
functions over an explicit `Store` state:

* a Datastore entity property value is a JSON-like `JVal`;
* a request body (`request.get_json()`) is a `Payload`, an association list
  from field names to values; `phas` is Python's `field in content`;
* the Datastore contents are two association lists keyed by integer entity
  ids (`client.key(kind, id)`), one per kind, plus the id generator
  (`client.key(kind)` followed by `client.put` allocates a fresh id);
* `client.get` is `dsGet`, `client.delete` is `dsDelete`, `client.put` is
  `dsPut` (upsert), and equality-filter queries are `List.filter`;
* each route handler returns `(Except ErrResp (Nat × body), Store)`: the
  HTTP status and body on success, or the exact error body and status the
  handler produces, together with the datastore state after the request.
-/

namespace RecordService

/-- A JSON-like property value as stored in a Datastore entity or sent in a
request body. -/
inductive JVal where
  | str : String → JVal
  | num : Int → JVal
  | bool : Bool → JVal
  | null : JVal
deriving DecidableEq, Repr

/-- A parsed JSON request body: field names mapped to values. -/
abbrev Payload := List (String × JVal)

/-- Lookup of a field in a request body. -/
def plookup (k : String) : Payload → Option JVal
  | [] => none
  | (k', v) :: rest => if k' = k then some v else plookup k rest

/-- Python's `field in content`. -/
def phas (k : String) (c : Payload) : Bool := (plookup k c).isSome

/-- Python's `content[field]` (only evaluated after a presence check in the
source, so the `.null` default is never observable). -/
def pget (k : String) (c : Payload) : JVal := (plookup k c).getD JVal.null

/-- A stored Business entity (`src/main.py` lines 20-29): the six properties
written by `create_business`/`edit_business`. -/
structure Business where
  owner_id : JVal
  name : JVal
  street_address : JVal
  city : JVal
  state : JVal
  zip_code : JVal
deriving DecidableEq, Repr

/-- A stored Review entity (`src/main.py` lines 201-211): `user_id`,
`business_id`, `stars`, and the optional `review_text` property. -/
structure Review where
  user_id : JVal
  business_id : JVal
  stars : JVal
  review_text : Option JVal
deriving DecidableEq, Repr

/-- `client.get(client.key(kind, id))`. -/
def dsGet {α : Type} (id : Int) : List (Int × α) → Option α
  | [] => none
  | (k, v) :: rest => if k = id then some v else dsGet id rest

/-- `client.delete(client.key(kind, id))`: drop the entry stored under the
key. -/
def dsDelete {α : Type} (id : Int) : List (Int × α) → List (Int × α)
  | [] => []
  | (k, v) :: rest => if k = id then dsDelete id rest else (k, v) :: dsDelete id rest

/-- `client.put(entity)` for an entity with key `(kind, id)`: an upsert. -/
def dsPut {α : Type} (id : Int) (v : α) (l : List (Int × α)) : List (Int × α) :=
  (id, v) :: dsDelete id l

/-- The Datastore state: the Business entities, the Review entities, and the
next id the key allocator will hand out. -/
structure Store where
  businesses : List (Int × Business)
  reviews : List (Int × Review)
  nextId : Int
deriving DecidableEq, Repr

/-- The empty datastore the service starts from. -/
def Store.empty : Store := ⟨[], [], 1⟩

/-- An HTTP error response: status code and the `{"Error": msg}` body. -/
structure ErrResp where
  code : Nat
  msg : String
deriving DecidableEq, Repr

/-- 400 response, `src/main.py` lines 17, 95, 182, 258. -/
def missingAttrs : ErrResp :=
  ⟨400, "The request body is missing at least one of the required attributes"⟩

/-- 404 response, `src/main.py` lines 52, 102, 134, 189. -/
def noSuchBusiness : ErrResp :=
  ⟨404, "No business with this business_id exists"⟩

/-- 404 response, `src/main.py` lines 236, 265, 296. -/
def noSuchReview : ErrResp :=
  ⟨404, "No review with this review_id exists"⟩

/-- 409 response, `src/main.py` line 198. -/
def duplicateReview : ErrResp :=
  ⟨409, "You have already submitted a review for this business. You can update your previous review, or delete it and submit a new review"⟩

/-- A Business response body (`id` plus the six properties). -/
structure BizResp where
  id : Int
  owner_id : JVal
  name : JVal
  street_address : JVal
  city : JVal
  state : JVal
  zip_code : JVal
deriving DecidableEq, Repr

/-- A Review response body; `review_text` is present exactly when the stored
entity has the property (`src/main.py` lines 223-224, 245-246, 283-284). -/
structure RevResp where
  id : Int
  user_id : JVal
  business_id : JVal
  stars : JVal
  review_text : Option JVal
deriving DecidableEq, Repr

/-- `src/main.py` lines 15 and 93. -/
def requiredBusinessFields : List String :=
  ["owner_id", "name", "street_address", "city", "state", "zip_code"]

/-- `src/main.py` line 180. -/
def requiredReviewFields : List String :=
  ["user_id", "business_id", "stars"]

/-- The Business entity written from a request body (`business.update({...})`,
lines 22-29 and 105-112: every property taken from `content`). -/
def bizFromPayload (content : Payload) : Business :=
  { owner_id := pget "owner_id" content
    name := pget "name" content
    street_address := pget "street_address" content
    city := pget "city" content
    state := pget "state" content
    zip_code := pget "zip_code" content }

/-- The Business response body (lines 33-41, 54-62, 115-123). -/
def bizResponse (id : Int) (b : Business) : BizResp :=
  ⟨id, b.owner_id, b.name, b.street_address, b.city, b.state, b.zip_code⟩

/-- The Review entity written by `create_review` (lines 203-211): the three
required properties plus `review_text` when supplied. -/
def reviewFromPayload (content : Payload) : Review :=
  { user_id := pget "user_id" content
    business_id := pget "business_id" content
    stars := pget "stars" content
    review_text := plookup "review_text" content }

/-- The Review response body (lines 216-224 etc.). -/
def revResponse (id : Int) (r : Review) : RevResp :=
  ⟨id, r.user_id, r.business_id, r.stars, r.review_text⟩

/-- `POST /businesses` (`create_business`, lines 9-42). -/
def create_business (content : Payload) (s : Store) :
    Except ErrResp (Nat × BizResp) × Store :=
  if requiredBusinessFields.all (fun f => phas f content) then
    (.ok (201, bizResponse s.nextId (bizFromPayload content)),
     { s with businesses := dsPut s.nextId (bizFromPayload content) s.businesses
              nextId := s.nextId + 1 })
  else (.error missingAttrs, s)

/-- `GET /businesses/{id}` (`get_business`, lines 45-63). -/
def get_business (business_id : Int) (s : Store) :
    Except ErrResp (Nat × BizResp) × Store :=
  match dsGet business_id s.businesses with
  | none => (.error noSuchBusiness, s)
  | some b => (.ok (200, bizResponse business_id b), s)

/-- `PUT /businesses/{id}` (`edit_business`, lines 87-124): full replacement. -/
def edit_business (business_id : Int) (content : Payload) (s : Store) :
    Except ErrResp (Nat × BizResp) × Store :=
  if requiredBusinessFields.all (fun f => phas f content) then
    match dsGet business_id s.businesses with
    | none => (.error noSuchBusiness, s)
    | some _ =>
      (.ok (200, bizResponse business_id (bizFromPayload content)),
       { s with businesses := dsPut business_id (bizFromPayload content) s.businesses })
  else (.error missingAttrs, s)

/-- The review-cascade phase of `delete_business` (lines 136-142): query the
Reviews whose `business_id` property equals the deleted id, then delete each
by key. The Business itself is untouched by this phase. -/
def cascadeReviews (business_id : Int) (s : Store) : Store :=
  { s with reviews :=
      (List.foldl (fun acc p => dsDelete p.1 acc) s.reviews
        (s.reviews.filter (fun p => p.2.business_id = JVal.num business_id))) }

/-- `DELETE /businesses/{id}` (`delete_business`, lines 127-147): 404 when the
Business is absent; otherwise delete the dependent Reviews first (the
`cascadeReviews` phase) and the Business last. -/
def delete_business (business_id : Int) (s : Store) :
    Except ErrResp (Nat × Unit) × Store :=
  match dsGet business_id s.businesses with
  | none => (.error noSuchBusiness, s)
  | some _ =>
    (.ok (204, ()),
     { cascadeReviews business_id s with
         businesses := dsDelete business_id (cascadeReviews business_id s).businesses })

/-- The Business lookup `client.get(client.key('Business', content['business_id']))`
in `create_review` (lines 185-186). The key id comes from the request body;
only an integer value can name a Business created by this service (Datastore
auto-allocated ids are integers), so any other value finds nothing. -/
def businessKeyLookup (v : JVal) (s : Store) : Option Business :=
  match v with
  | .num n => dsGet n s.businesses
  | _ => none

/-- The duplicate query of `create_review` (lines 192-195): Reviews whose
`user_id` and `business_id` properties both match. -/
def matchingReviews (u b : JVal) (s : Store) : List (Int × Review) :=
  s.reviews.filter (fun p => p.2.user_id = u ∧ p.2.business_id = b)

/-- `POST /reviews` (`create_review`, lines 174-226). -/
def create_review (content : Payload) (s : Store) :
    Except ErrResp (Nat × RevResp) × Store :=
  if requiredReviewFields.all (fun f => phas f content) then
    match businessKeyLookup (pget "business_id" content) s with
    | none => (.error noSuchBusiness, s)
    | some _ =>
      if matchingReviews (pget "user_id" content) (pget "business_id" content) s ≠ [] then
        (.error duplicateReview, s)
      else
        (.ok (201, revResponse s.nextId (reviewFromPayload content)),
         { s with reviews := dsPut s.nextId (reviewFromPayload content) s.reviews
                  nextId := s.nextId + 1 })
  else (.error missingAttrs, s)

/-- `GET /reviews/{id}` (`get_review`, lines 229-248). -/
def get_review (review_id : Int) (s : Store) :
    Except ErrResp (Nat × RevResp) × Store :=
  match dsGet review_id s.reviews with
  | none => (.error noSuchReview, s)
  | some r => (.ok (200, revResponse review_id r), s)

/-- The entity mutation of `edit_review` (lines 267-272): `stars` is always
overwritten; `review_text` only when present in the body. -/
def applyReviewEdit (content : Payload) (r : Review) : Review :=
  match plookup "review_text" content with
  | some t => { r with stars := pget "stars" content, review_text := some t }
  | none => { r with stars := pget "stars" content }

/-- `PUT /reviews/{id}` (`edit_review`, lines 251-286): partial update. -/
def edit_review (review_id : Int) (content : Payload) (s : Store) :
    Except ErrResp (Nat × RevResp) × Store :=
  if phas "stars" content then
    match dsGet review_id s.reviews with
    | none => (.error noSuchReview, s)
    | some r =>
      (.ok (200, revResponse review_id (applyReviewEdit content r)),
       { s with reviews := dsPut review_id (applyReviewEdit content r) s.reviews })
  else (.error missingAttrs, s)

/-- `DELETE /reviews/{id}` (`delete_review`, lines 289-300). -/
def delete_review (review_id : Int) (s : Store) :
    Except ErrResp (Nat × Unit) × Store :=
  match dsGet review_id s.reviews with
  | none => (.error noSuchReview, s)
  | some _ => (.ok (204, ()), { s with reviews := dsDelete review_id s.reviews })

/-! ### Datastore lemmas -/

theorem dsGet_dsDelete {α : Type} (i j : Int) (l : List (Int × α)) :
    dsGet i (dsDelete j l) = if i = j then none else dsGet i l := by
  induction l with
  | nil => simp [dsDelete, dsGet]
  | cons p rest ih =>
    obtain ⟨k, v⟩ := p
    by_cases hkj : k = j <;> by_cases hki : k = i <;> by_cases hij : i = j <;>
      simp_all [dsDelete, dsGet]

theorem dsGet_dsPut_self {α : Type} (i : Int) (v : α) (l : List (Int × α)) :
    dsGet i (dsPut i v l) = some v := by
  simp [dsPut, dsGet]

theorem dsGet_dsPut_ne {α : Type} {i j : Int} (v : α) (l : List (Int × α))
    (h : i ≠ j) : dsGet i (dsPut j v l) = dsGet i l := by
  have hji : ¬ (j = i) := fun hh => h hh.symm
  simp only [dsPut, dsGet, if_neg hji]
  rw [dsGet_dsDelete, if_neg h]

theorem dsGet_foldl_delete {α β : Type} (ps : List (Int × β)) (l : List (Int × α))
    (i : Int) :
    dsGet i (List.foldl (fun acc p => dsDelete p.1 acc) l ps) =
      if i ∈ ps.map Prod.fst then none else dsGet i l := by
  induction ps generalizing l with
  | nil => simp
  | cons p rest ih =>
    simp only [List.foldl_cons, List.map_cons, List.mem_cons, ih, dsGet_dsDelete]
    by_cases h1 : i ∈ rest.map Prod.fst
    · simp [h1]
    · by_cases h2 : i = p.1 <;> simp [h1, h2]

theorem mem_of_dsGet {α : Type} {i : Int} {v : α} {l : List (Int × α)}
    (h : dsGet i l = some v) : (i, v) ∈ l := by
  induction l with
  | nil => simp [dsGet] at h
  | cons p rest ih =>
    obtain ⟨k, w⟩ := p
    by_cases hk : k = i
    · subst hk
      simp only [dsGet, if_true, eq_self_iff_true, Option.some.injEq] at h
      subst h
      exact List.mem_cons_self _ _
    · simp only [dsGet, if_neg hk] at h
      exact List.mem_cons_of_mem _ (ih h)

theorem dsDelete_sublist {α : Type} (i : Int) (l : List (Int × α)) :
    List.Sublist (dsDelete i l) l := by
  induction l with
  | nil => simp [dsDelete]
  | cons p rest ih =>
    obtain ⟨k, v⟩ := p
    by_cases hk : k = i
    · simpa [dsDelete, hk] using ih.cons (k, v)
    · simpa [dsDelete, hk] using ih.cons₂ (k, v)

theorem foldl_delete_sublist {α β : Type} (ps : List (Int × β)) (l : List (Int × α)) :
    List.Sublist (List.foldl (fun acc p => dsDelete p.1 acc) l ps) l := by
  induction ps generalizing l with
  | nil => exact List.Sublist.refl l
  | cons p rest ih =>
    exact (ih (dsDelete p.1 l)).trans (dsDelete_sublist p.1 l)

/-! ### C1: cascading delete of a Business -/

/-- C1: whenever a Business with id `bid` exists, `delete_business bid`
succeeds (204); afterwards every Review whose `business_id` equals `bid` is
gone (`Get` on its id answers NotFound) and the Business itself is gone
(`Get` answers NotFound); and the Reviews are removed before the Business:
after the review-cascade phase the Business is still stored. -/
theorem delete_business_cascade (s : Store) (bid : Int) (b : Business)
    (hb : dsGet bid s.businesses = some b) :
    (delete_business bid s).1 = .ok (204, ()) ∧
    (∀ rid r, (rid, r) ∈ s.reviews → r.business_id = JVal.num bid →
      (get_review rid (delete_business bid s).2).1 = .error noSuchReview) ∧
    (get_business bid (delete_business bid s).2).1 = .error noSuchBusiness ∧
    dsGet bid (cascadeReviews bid s).businesses = some b := by
  refine ⟨by simp [delete_business, hb], ?_, ?_, hb⟩
  · intro rid r hmem hbid
    have hfil : (rid, r) ∈ s.reviews.filter
        (fun p => p.2.business_id = JVal.num bid) :=
      List.mem_filter.mpr ⟨hmem, by simp [hbid]⟩
    have hkey : rid ∈ (s.reviews.filter
        (fun p => p.2.business_id = JVal.num bid)).map Prod.fst :=
      List.mem_map.mpr ⟨(rid, r), hfil, rfl⟩
    have hnone : dsGet rid (delete_business bid s).2.reviews = none := by
      simp only [delete_business, hb, cascadeReviews]
      rw [dsGet_foldl_delete, if_pos hkey]
    simp [get_review, hnone]
  · have hnone : dsGet bid (delete_business bid s).2.businesses = none := by
      simp only [delete_business, hb]
      rw [dsGet_dsDelete, if_pos rfl]
    simp [get_business, hnone]

/-- The store used to witness C1: Business 1 and a Review of it with id 2. -/
def c1Store : Store :=
  ⟨[(1, ⟨.num 1, .str "n", .str "a", .str "c", .str "s", .str "z"⟩)],
   [(2, ⟨.num 9, .num 1, .num 5, some (.str "great")⟩)], 3⟩

theorem delete_business_cascade_witness :
    (delete_business 1 c1Store).1 = .ok (204, ()) ∧
    (get_review 2 (delete_business 1 c1Store).2).1 = .error noSuchReview ∧
    (get_business 1 (delete_business 1 c1Store).2).1 = .error noSuchBusiness ∧
    dsGet 1 (cascadeReviews 1 c1Store).businesses =
      some ⟨.num 1, .str "n", .str "a", .str "c", .str "s", .str "z"⟩ := by
  have h := delete_business_cascade c1Store 1
    ⟨.num 1, .str "n", .str "a", .str "c", .str "s", .str "z"⟩ (by decide)
  exact ⟨h.1, h.2.1 2 ⟨.num 9, .num 1, .num 5, some (.str "great")⟩
    (by decide) (by decide), h.2.2.1, h.2.2.2⟩

/-! ### Required-field checks -/

theorem all_phas_eq_true {fields : List String} {c : Payload} :
    fields.all (fun f => phas f c) = true ↔ ∀ f ∈ fields, (plookup f c).isSome := by
  simp [List.all_eq_true, phas]

theorem all_phas_eq_false {fields : List String} {c : Payload} :
    fields.all (fun f => phas f c) = false ↔ ∃ f ∈ fields, plookup f c = none := by
  simp [List.all_eq_false, phas, Option.not_isSome_iff_eq_none]

/-! ### C3: ordered error contract of Review Create -/

/-- C3: `create_review` checks in order: a missing required field gives the
400 response; otherwise a missing referenced Business gives the 404 response;
otherwise an existing Review for the same (`user_id`, `business_id`) gives the
409 response; only then is a new Review persisted under the generated id,
copying `stars` and copying `review_text` exactly when supplied. -/
theorem create_review_contract (content : Payload) (s : Store) :
    ((∃ f ∈ requiredReviewFields, plookup f content = none) →
      create_review content s = (.error missingAttrs, s)) ∧
    ((∀ f ∈ requiredReviewFields, (plookup f content).isSome) →
      businessKeyLookup (pget "business_id" content) s = none →
      create_review content s = (.error noSuchBusiness, s)) ∧
    (∀ b, (∀ f ∈ requiredReviewFields, (plookup f content).isSome) →
      businessKeyLookup (pget "business_id" content) s = some b →
      matchingReviews (pget "user_id" content) (pget "business_id" content) s ≠ [] →
      create_review content s = (.error duplicateReview, s)) ∧
    (∀ b, (∀ f ∈ requiredReviewFields, (plookup f content).isSome) →
      businessKeyLookup (pget "business_id" content) s = some b →
      matchingReviews (pget "user_id" content) (pget "business_id" content) s = [] →
      create_review content s =
        (.ok (201, revResponse s.nextId (reviewFromPayload content)),
         { s with reviews := dsPut s.nextId (reviewFromPayload content) s.reviews
                  nextId := s.nextId + 1 }) ∧
      (reviewFromPayload content).stars = pget "stars" content ∧
      (reviewFromPayload content).review_text = plookup "review_text" content) := by
  refine ⟨?_, ?_, ?_, ?_⟩
  · intro hmiss
    have hall : requiredReviewFields.all (fun f => phas f content) = false :=
      all_phas_eq_false.mpr hmiss
    simp [create_review, hall]
  · intro hall hbiz
    have h : requiredReviewFields.all (fun f => phas f content) = true :=
      all_phas_eq_true.mpr hall
    simp [create_review, h, hbiz]
  · intro b hall hbiz hdup
    have h : requiredReviewFields.all (fun f => phas f content) = true :=
      all_phas_eq_true.mpr hall
    simp [create_review, h, hbiz, hdup]
  · intro b hall hbiz hemp
    have h : requiredReviewFields.all (fun f => phas f content) = true :=
      all_phas_eq_true.mpr hall
    exact ⟨by simp [create_review, h, hbiz, hemp], rfl, rfl⟩

/-- Store used to witness C3: one Business with id 1, no reviews. -/
def c3Store : Store :=
  ⟨[(1, ⟨.num 1, .str "n", .str "a", .str "c", .str "s", .str "z"⟩)], [], 2⟩

/-- Payload used to witness C3. -/
def c3Payload : Payload :=
  [("user_id", .num 9), ("business_id", .num 1), ("stars", .num 5)]

theorem create_review_contract_witness :
    create_review c3Payload c3Store =
      (.ok (201, revResponse c3Store.nextId (reviewFromPayload c3Payload)),
       { c3Store with
           reviews := dsPut c3Store.nextId (reviewFromPayload c3Payload) c3Store.reviews
           nextId := c3Store.nextId + 1 }) :=
  ((create_review_contract c3Payload c3Store).2.2.2
    ⟨.num 1, .str "n", .str "a", .str "c", .str "s", .str "z"⟩
    (by decide) (by decide) (by decide)).1

/-! ### C4: partial-update semantics of Review Replace -/

/-- C4: on an existing Review and a payload containing `stars`, `edit_review`
succeeds, overwrites `stars` unconditionally, overwrites `review_text` only
when the payload has it (otherwise the stored value is kept), and never
changes `user_id` or `business_id`. -/
theorem edit_review_partial_update (review_id : Int) (content : Payload) (s : Store)
    (r : Review) (hr : dsGet review_id s.reviews = some r)
    (hstars : phas "stars" content = true) :
    edit_review review_id content s =
      (.ok (200, revResponse review_id (applyReviewEdit content r)),
       { s with reviews := dsPut review_id (applyReviewEdit content r) s.reviews }) ∧
    (applyReviewEdit content r).stars = pget "stars" content ∧
    (applyReviewEdit content r).review_text =
      (match plookup "review_text" content with
       | some t => some t
       | none => r.review_text) ∧
    (applyReviewEdit content r).user_id = r.user_id ∧
    (applyReviewEdit content r).business_id = r.business_id := by
  refine ⟨by simp [edit_review, hstars, hr], ?_, ?_, ?_, ?_⟩ <;>
    cases h : plookup "review_text" content <;> simp [applyReviewEdit, h]

/-- Store used to witness C4: one Review with id 2 that has a `review_text`. -/
def c4Store : Store :=
  ⟨[(1, ⟨.num 1, .str "n", .str "a", .str "c", .str "s", .str "z"⟩)],
   [(2, ⟨.num 9, .num 1, .num 5, some (.str "great")⟩)], 3⟩

theorem edit_review_partial_update_witness :
    edit_review 2 [("stars", .num 4)] c4Store =
      (.ok (200, revResponse 2
         (applyReviewEdit [("stars", .num 4)] ⟨.num 9, .num 1, .num 5, some (.str "great")⟩)),
       { c4Store with reviews := (dsPut 2
           (applyReviewEdit [("stars", .num 4)] ⟨.num 9, .num 1, .num 5, some (.str "great")⟩)
           c4Store.reviews) }) ∧
    (applyReviewEdit [("stars", .num 4)]
      (⟨.num 9, .num 1, .num 5, some (.str "great")⟩ : Review)).review_text =
        some (.str "great") :=
  ⟨(edit_review_partial_update 2 [("stars", .num 4)] c4Store
      ⟨.num 9, .num 1, .num 5, some (.str "great")⟩ (by decide) (by decide)).1,
   by decide⟩

/-! ### C5: full-replacement semantics of Business Replace -/

/-- C5: `edit_business` demands all six fields on every call, failing with the
400 response when any is absent, whatever the stored Business holds; on
success every stored field is overwritten with the payload's value. -/
theorem edit_business_contract (business_id : Int) (content : Payload) (s : Store) :
    ((∃ f ∈ requiredBusinessFields, plookup f content = none) →
      edit_business business_id content s = (.error missingAttrs, s)) ∧
    (∀ b, (∀ f ∈ requiredBusinessFields, (plookup f content).isSome) →
      dsGet business_id s.businesses = some b →
      edit_business business_id content s =
        (.ok (200, bizResponse business_id (bizFromPayload content)),
         { s with businesses := dsPut business_id (bizFromPayload content) s.businesses }) ∧
      dsGet business_id (edit_business business_id content s).2.businesses =
        some (bizFromPayload content) ∧
      (bizFromPayload content).owner_id = pget "owner_id" content ∧
      (bizFromPayload content).name = pget "name" content ∧
      (bizFromPayload content).street_address = pget "street_address" content ∧
      (bizFromPayload content).city = pget "city" content ∧
      (bizFromPayload content).state = pget "state" content ∧
      (bizFromPayload content).zip_code = pget "zip_code" content) := by
  refine ⟨?_, ?_⟩
  · intro hmiss
    have hall : requiredBusinessFields.all (fun f => phas f content) = false :=
      all_phas_eq_false.mpr hmiss
    simp [edit_business, hall]
  · intro b hall hb
    have h : requiredBusinessFields.all (fun f => phas f content) = true :=
      all_phas_eq_true.mpr hall
    have hres : edit_business business_id content s =
        (.ok (200, bizResponse business_id (bizFromPayload content)),
         { s with businesses := dsPut business_id (bizFromPayload content) s.businesses }) := by
      simp [edit_business, h, hb]
    refine ⟨hres, ?_, rfl, rfl, rfl, rfl, rfl, rfl⟩
    rw [hres]
    exact dsGet_dsPut_self _ _ _

/-- Store used to witness C5: Business 1 present with all fields set. -/
def c5Store : Store :=
  ⟨[(1, ⟨.num 1, .str "n", .str "a", .str "c", .str "s", .str "z"⟩)], [], 2⟩

theorem edit_business_contract_witness :
    edit_business 1 [("name", .str "only-name")] c5Store =
      (.error missingAttrs, c5Store) ∧ missingAttrs.code = 400 :=
  ⟨(edit_business_contract 1 [("name", .str "only-name")] c5Store).1
    ⟨"owner_id", by decide, by decide⟩, rfl⟩

/-! ### C6: Create validation iff a required field is absent, no partial persist -/

/-- C6: for both kinds, Create answers the 400 response exactly when some
required field is absent from the payload, and any Create failure leaves the
datastore untouched. -/
theorem create_validation_iff (cb cr : Payload) (s : Store) :
    ((create_business cb s).1 = .error missingAttrs ↔
      ∃ f ∈ requiredBusinessFields, plookup f cb = none) ∧
    (∀ e, (create_business cb s).1 = .error e → (create_business cb s).2 = s) ∧
    ((create_review cr s).1 = .error missingAttrs ↔
      ∃ f ∈ requiredReviewFields, plookup f cr = none) ∧
    (∀ e, (create_review cr s).1 = .error e → (create_review cr s).2 = s) := by
  have hb40 : (noSuchBusiness = missingAttrs) = False := by
    simp [noSuchBusiness, missingAttrs]
  have hd40 : (duplicateReview = missingAttrs) = False := by
    simp [duplicateReview, missingAttrs]
  refine ⟨?_, ?_, ?_, ?_⟩
  · cases hall : requiredBusinessFields.all (fun f => phas f cb) with
    | true =>
      simp only [create_business, hall, if_true]
      simp [← all_phas_eq_false, hall]
    | false =>
      simp only [create_business, hall, if_false]
      simp [← all_phas_eq_false, hall]
  · intro e
    cases hall : requiredBusinessFields.all (fun f => phas f cb) <;>
      simp [create_business, hall]
  · cases hall : requiredReviewFields.all (fun f => phas f cr) with
    | true =>
      cases hbiz : businessKeyLookup (pget "business_id" cr) s with
      | none => simp [create_review, hall, hbiz, hb40, ← all_phas_eq_false]
      | some b =>
        by_cases hdup :
            matchingReviews (pget "user_id" cr) (pget "business_id" cr) s ≠ [] <;>
          simp [create_review, hall, hbiz, hdup, hd40, ← all_phas_eq_false]
    | false => simp [create_review, hall, ← all_phas_eq_false]
  · intro e
    cases hall : requiredReviewFields.all (fun f => phas f cr) with
    | true =>
      cases hbiz : businessKeyLookup (pget "business_id" cr) s with
      | none => simp [create_review, hall, hbiz]
      | some b =>
        by_cases hdup :
            matchingReviews (pget "user_id" cr) (pget "business_id" cr) s ≠ [] <;>
          simp [create_review, hall, hbiz, hdup]
    | false => simp [create_review, hall]

theorem create_validation_iff_witness :
    (create_business [("owner_id", JVal.num 1)] Store.empty).1 = .error missingAttrs ∧
    (create_business [("owner_id", JVal.num 1)] Store.empty).2 = Store.empty := by
  have h := create_validation_iff [("owner_id", JVal.num 1)] [] Store.empty
  exact ⟨h.1.mpr ⟨"name", by decide, by decide⟩,
    h.2.1 missingAttrs (h.1.mpr ⟨"name", by decide, by decide⟩)⟩

/-! ### C7: Create-then-Get round trip -/

/-- C7: a valid Create returns the entity with exactly the payload's field
values, and Get on the returned id answers the same values; a Review's
`review_text` appears in both responses exactly when it was supplied. -/
theorem create_then_get (cb cr : Payload) (s : Store) :
    ((∀ f ∈ requiredBusinessFields, (plookup f cb).isSome) →
      (create_business cb s).1 = .ok (201, bizResponse s.nextId (bizFromPayload cb)) ∧
      (get_business s.nextId (create_business cb s).2).1 =
        .ok (200, bizResponse s.nextId (bizFromPayload cb)) ∧
      (bizResponse s.nextId (bizFromPayload cb)).owner_id = pget "owner_id" cb ∧
      (bizResponse s.nextId (bizFromPayload cb)).name = pget "name" cb ∧
      (bizResponse s.nextId (bizFromPayload cb)).street_address = pget "street_address" cb ∧
      (bizResponse s.nextId (bizFromPayload cb)).city = pget "city" cb ∧
      (bizResponse s.nextId (bizFromPayload cb)).state = pget "state" cb ∧
      (bizResponse s.nextId (bizFromPayload cb)).zip_code = pget "zip_code" cb) ∧
    (∀ b, (∀ f ∈ requiredReviewFields, (plookup f cr).isSome) →
      businessKeyLookup (pget "business_id" cr) s = some b →
      matchingReviews (pget "user_id" cr) (pget "business_id" cr) s = [] →
      (create_review cr s).1 = .ok (201, revResponse s.nextId (reviewFromPayload cr)) ∧
      (get_review s.nextId (create_review cr s).2).1 =
        .ok (200, revResponse s.nextId (reviewFromPayload cr)) ∧
      (revResponse s.nextId (reviewFromPayload cr)).user_id = pget "user_id" cr ∧
      (revResponse s.nextId (reviewFromPayload cr)).business_id = pget "business_id" cr ∧
      (revResponse s.nextId (reviewFromPayload cr)).stars = pget "stars" cr ∧
      (revResponse s.nextId (reviewFromPayload cr)).review_text = plookup "review_text" cr) := by
  refine ⟨?_, ?_⟩
  · intro hall
    have h : requiredBusinessFields.all (fun f => phas f cb) = true :=
      all_phas_eq_true.mpr hall
    have hget : dsGet s.nextId (create_business cb s).2.businesses =
        some (bizFromPayload cb) := by
      simp only [create_business, h, if_true]
      exact dsGet_dsPut_self _ _ _
    exact ⟨by simp [create_business, h], by simp [get_business, hget],
      rfl, rfl, rfl, rfl, rfl, rfl⟩
  · intro b hall hbiz hemp
    have h : requiredReviewFields.all (fun f => phas f cr) = true :=
      all_phas_eq_true.mpr hall
    have hget : dsGet s.nextId (create_review cr s).2.reviews =
        some (reviewFromPayload cr) := by
      simp only [create_review, h, if_true, hbiz, hemp, ne_eq, not_true_eq_false,
        if_false]
      exact dsGet_dsPut_self _ _ _
    exact ⟨by simp [create_review, h, hbiz, hemp], by simp [get_review, hget],
      rfl, rfl, rfl, rfl⟩

theorem create_then_get_witness :
    (create_review c3Payload c3Store).1 =
      .ok (201, revResponse c3Store.nextId (reviewFromPayload c3Payload)) ∧
    (get_review c3Store.nextId (create_review c3Payload c3Store).2).1 =
      .ok (200, revResponse c3Store.nextId (reviewFromPayload c3Payload)) ∧
    (revResponse c3Store.nextId (reviewFromPayload c3Payload)).review_text = none := by
  have h := (create_then_get [] c3Payload c3Store).2
    ⟨.num 1, .str "n", .str "a", .str "c", .str "s", .str "z"⟩
    (by decide) (by decide) (by decide)
  exact ⟨h.1, h.2.1, h.2.2.2.2.2⟩

/-! ### C8: nonexistent ids give NotFound and leave the store unchanged -/

/-- C8: for an id absent from the store, Get, Replace (with an otherwise
valid payload) and Delete answer the 404 response for both entity kinds, with
the datastore unchanged. -/
theorem nonexistent_id_not_found (i : Int) (cb cr : Payload) (s : Store)
    (hb : dsGet i s.businesses = none) (hr : dsGet i s.reviews = none)
    (hcb : ∀ f ∈ requiredBusinessFields, (plookup f cb).isSome)
    (hcr : phas "stars" cr = true) :
    get_business i s = (.error noSuchBusiness, s) ∧
    edit_business i cb s = (.error noSuchBusiness, s) ∧
    delete_business i s = (.error noSuchBusiness, s) ∧
    get_review i s = (.error noSuchReview, s) ∧
    edit_review i cr s = (.error noSuchReview, s) ∧
    delete_review i s = (.error noSuchReview, s) ∧
    noSuchBusiness.code = 404 ∧ noSuchReview.code = 404 := by
  have h : requiredBusinessFields.all (fun f => phas f cb) = true :=
    all_phas_eq_true.mpr hcb
  exact ⟨by simp [get_business, hb], by simp [edit_business, h, hb],
    by simp [delete_business, hb], by simp [get_review, hr],
    by simp [edit_review, hcr, hr], by simp [delete_review, hr], rfl, rfl⟩

/-- Payload used to witness C8: a fully valid Business body. -/
def c8Payload : Payload :=
  [("owner_id", .num 1), ("name", .str "n"), ("street_address", .str "a"),
   ("city", .str "c"), ("state", .str "s"), ("zip_code", .str "z")]

theorem nonexistent_id_not_found_witness :
    get_business 42 Store.empty = (.error noSuchBusiness, Store.empty) ∧
    edit_business 42 c8Payload Store.empty = (.error noSuchBusiness, Store.empty) ∧
    delete_business 42 Store.empty = (.error noSuchBusiness, Store.empty) ∧
    get_review 42 Store.empty = (.error noSuchReview, Store.empty) ∧
    edit_review 42 [("stars", .num 1)] Store.empty = (.error noSuchReview, Store.empty) ∧
    delete_review 42 Store.empty = (.error noSuchReview, Store.empty) ∧
    noSuchBusiness.code = 404 ∧ noSuchReview.code = 404 :=
  nonexistent_id_not_found 42 c8Payload [("stars", .num 1)] Store.empty
    (by decide) (by decide) (by decide) (by decide)

/-! ### C9: `stars` is not validated beyond presence -/

/-- C9: whenever the key `stars` is present, its value — of any constructor
or magnitude — is accepted, stored unchanged and echoed unchanged, both by
`create_review` (when the other checks pass) and by `edit_review`. -/
theorem stars_not_validated (v : JVal) (c : Payload) (s : Store) :
    (plookup "stars" c = some v →
      (∀ f ∈ requiredReviewFields, (plookup f c).isSome) →
      ∀ b, businessKeyLookup (pget "business_id" c) s = some b →
      matchingReviews (pget "user_id" c) (pget "business_id" c) s = [] →
      (reviewFromPayload c).stars = v ∧
      (create_review c s).1 = .ok (201, revResponse s.nextId (reviewFromPayload c)) ∧
      dsGet s.nextId (create_review c s).2.reviews = some (reviewFromPayload c) ∧
      (revResponse s.nextId (reviewFromPayload c)).stars = v) ∧
    (plookup "stars" c = some v →
      ∀ i r, dsGet i s.reviews = some r →
      (edit_review i c s).1 = .ok (200, revResponse i (applyReviewEdit c r)) ∧
      (applyReviewEdit c r).stars = v ∧
      dsGet i (edit_review i c s).2.reviews = some (applyReviewEdit c r) ∧
      (revResponse i (applyReviewEdit c r)).stars = v) := by
  refine ⟨?_, ?_⟩
  · intro hv hall b hbiz hemp
    have h : requiredReviewFields.all (fun f => phas f c) = true :=
      all_phas_eq_true.mpr hall
    have hst : (reviewFromPayload c).stars = v := by
      simp [reviewFromPayload, pget, hv]
    have hget : dsGet s.nextId (create_review c s).2.reviews =
        some (reviewFromPayload c) := by
      simp only [create_review, h, if_true, hbiz, hemp, ne_eq, not_true_eq_false,
        if_false]
      exact dsGet_dsPut_self _ _ _
    exact ⟨hst, by simp [create_review, h, hbiz, hemp], hget, hst⟩
  · intro hv i r hri
    have hstars : phas "stars" c = true := by simp [phas, hv]
    have hst : (applyReviewEdit c r).stars = v := by
      cases h : plookup "review_text" c <;> simp [applyReviewEdit, h, pget, hv]
    have hget : dsGet i (edit_review i c s).2.reviews =
        some (applyReviewEdit c r) := by
      simp only [edit_review, hstars, if_true, hri]
      exact dsGet_dsPut_self _ _ _
    exact ⟨by simp [edit_review, hstars, hri], hst, hget, hst⟩

/-- Payload used to witness C9: `stars` is a string, not a number. -/
def c9Payload : Payload :=
  [("user_id", .num 9), ("business_id", .num 1), ("stars", .str "five hundred")]

theorem stars_not_validated_witness :
    (reviewFromPayload c9Payload).stars = .str "five hundred" ∧
    (create_review c9Payload c3Store).1 =
      .ok (201, revResponse c3Store.nextId (reviewFromPayload c9Payload)) := by
  have h := (stars_not_validated (.str "five hundred") c9Payload c3Store).1
    (by decide) (by decide)
    ⟨.num 1, .str "n", .str "a", .str "c", .str "s", .str "z"⟩
    (by decide) (by decide)
  exact ⟨h.1, h.2.1⟩

/-! ### C10: ValidationError takes precedence over NotFound -/

/-- C10: the required-field check runs before any existence lookup: a payload
missing a required field draws the 400 response from `edit_business` even
when the target Business id does not exist, and from `create_review` even
when the referenced `business_id` does not exist. -/
theorem validation_before_not_found (business_id : Int) (cb cr : Payload) (s : Store)
    (_hb : dsGet business_id s.businesses = none)
    (hcb : ∃ f ∈ requiredBusinessFields, plookup f cb = none)
    (hcr : ∃ f ∈ requiredReviewFields, plookup f cr = none)
    (_hbr : businessKeyLookup (pget "business_id" cr) s = none) :
    edit_business business_id cb s = (.error missingAttrs, s) ∧
    create_review cr s = (.error missingAttrs, s) ∧
    missingAttrs.code = 400 := by
  have h1 : requiredBusinessFields.all (fun f => phas f cb) = false :=
    all_phas_eq_false.mpr hcb
  have h2 : requiredReviewFields.all (fun f => phas f cr) = false :=
    all_phas_eq_false.mpr hcr
  exact ⟨by simp [edit_business, h1], by simp [create_review, h2], rfl⟩

theorem validation_before_not_found_witness :
    edit_business 7 [("name", .str "x")] Store.empty = (.error missingAttrs, Store.empty) ∧
    create_review [("user_id", .num 9), ("business_id", .num 7)] Store.empty =
      (.error missingAttrs, Store.empty) ∧
    missingAttrs.code = 400 :=
  validation_before_not_found 7 [("name", .str "x")]
    [("user_id", .num 9), ("business_id", .num 7)] Store.empty
    (by decide) ⟨"owner_id", by decide, by decide⟩ ⟨"stars", by decide, by decide⟩
    (by decide)

/-! ### C2: the one-review-per-(user, business) invariant -/

/-- No two distinct stored Review entries share both `user_id` and
`business_id`. -/
def distinctPairs (l : List (Int × Review)) : Prop :=
  l.Pairwise (fun p q => ¬ (p.2.user_id = q.2.user_id ∧ p.2.business_id = q.2.business_id))

theorem distinctPairs_symm :
    Symmetric (fun p q : Int × Review =>
      ¬ (p.2.user_id = q.2.user_id ∧ p.2.business_id = q.2.business_id)) :=
  fun _ _ hab hc => hab ⟨hc.1.symm, hc.2.symm⟩

theorem mem_dsDelete {α : Type} {q : Int × α} {i : Int} {l : List (Int × α)}
    (h : q ∈ dsDelete i l) : q ∈ l ∧ q.1 ≠ i := by
  induction l with
  | nil => simp [dsDelete] at h
  | cons p rest ih =>
    obtain ⟨k, v⟩ := p
    by_cases hk : k = i
    · rw [dsDelete, if_pos hk] at h
      obtain ⟨h1, h2⟩ := ih h
      exact ⟨List.mem_cons_of_mem _ h1, h2⟩
    · rw [dsDelete, if_neg hk] at h
      rcases List.mem_cons.mp h with h1 | h1
      · subst h1; exact ⟨List.mem_cons_self _ _, hk⟩
      · obtain ⟨h2, h3⟩ := ih h1
        exact ⟨List.mem_cons_of_mem _ h2, h3⟩

theorem distinctPairs_dsPut {i : Int} {r : Review} {l : List (Int × Review)}
    (hl : distinctPairs l)
    (hnew : ∀ q ∈ l, q.1 ≠ i →
      ¬ (q.2.user_id = r.user_id ∧ q.2.business_id = r.business_id)) :
    distinctPairs (dsPut i r l) := by
  rw [distinctPairs, dsPut, List.pairwise_cons]
  refine ⟨?_, hl.sublist (dsDelete_sublist i l)⟩
  intro q hq hc
  obtain ⟨hql, hqi⟩ := mem_dsDelete hq
  exact hnew q hql hqi ⟨hc.1.symm, hc.2.symm⟩

theorem matchingReviews_eq_nil {u b : JVal} {s : Store}
    (h : matchingReviews u b s = []) :
    ∀ q ∈ s.reviews, ¬ (q.2.user_id = u ∧ q.2.business_id = b) := by
  intro q hq hc
  have hmem : q ∈ matchingReviews u b s :=
    List.mem_filter.mpr ⟨hq, by simp [hc.1, hc.2]⟩
  simp [h] at hmem

theorem applyReviewEdit_user_id (c : Payload) (r : Review) :
    (applyReviewEdit c r).user_id = r.user_id := by
  cases h : plookup "review_text" c <;> simp [applyReviewEdit, h]

theorem applyReviewEdit_business_id (c : Payload) (r : Review) :
    (applyReviewEdit c r).business_id = r.business_id := by
  cases h : plookup "review_text" c <;> simp [applyReviewEdit, h]

theorem distinctPairs_create_business (c : Payload) {s : Store}
    (h : distinctPairs s.reviews) : distinctPairs (create_business c s).2.reviews := by
  cases hall : requiredBusinessFields.all (fun f => phas f c) <;>
    simpa [create_business, hall] using h

theorem distinctPairs_get_business (i : Int) {s : Store}
    (h : distinctPairs s.reviews) : distinctPairs (get_business i s).2.reviews := by
  cases hb : dsGet i s.businesses <;> simpa [get_business, hb] using h

theorem distinctPairs_edit_business (i : Int) (c : Payload) {s : Store}
    (h : distinctPairs s.reviews) : distinctPairs (edit_business i c s).2.reviews := by
  cases hall : requiredBusinessFields.all (fun f => phas f c) with
  | false => simpa [edit_business, hall] using h
  | true =>
    cases hb : dsGet i s.businesses <;> simpa [edit_business, hall, hb] using h

theorem distinctPairs_delete_business (i : Int) {s : Store}
    (h : distinctPairs s.reviews) : distinctPairs (delete_business i s).2.reviews := by
  cases hb : dsGet i s.businesses with
  | none => simpa [delete_business, hb] using h
  | some b =>
    have hres : (delete_business i s).2.reviews = (cascadeReviews i s).reviews := by
      simp [delete_business, hb]
    rw [hres, cascadeReviews]
    exact h.sublist (foldl_delete_sublist _ _)

theorem distinctPairs_create_review (c : Payload) {s : Store}
    (h : distinctPairs s.reviews) : distinctPairs (create_review c s).2.reviews := by
  cases hall : requiredReviewFields.all (fun f => phas f c) with
  | false => simpa [create_review, hall] using h
  | true =>
    cases hbiz : businessKeyLookup (pget "business_id" c) s with
    | none => simpa [create_review, hall, hbiz] using h
    | some b =>
      by_cases hdup :
          matchingReviews (pget "user_id" c) (pget "business_id" c) s ≠ []
      · simpa [create_review, hall, hbiz, hdup] using h
      · have hemp : matchingReviews (pget "user_id" c) (pget "business_id" c) s = [] := by
          simpa using hdup
        have hres : (create_review c s).2.reviews =
            dsPut s.nextId (reviewFromPayload c) s.reviews := by
          simp [create_review, hall, hbiz, hemp]
        rw [hres]
        refine distinctPairs_dsPut h ?_
        intro q hq _ hc
        exact matchingReviews_eq_nil hemp q hq ⟨hc.1, hc.2⟩

theorem distinctPairs_get_review (i : Int) {s : Store}
    (h : distinctPairs s.reviews) : distinctPairs (get_review i s).2.reviews := by
  cases hr : dsGet i s.reviews <;> simpa [get_review, hr] using h

theorem distinctPairs_edit_review (i : Int) (c : Payload) {s : Store}
    (h : distinctPairs s.reviews) : distinctPairs (edit_review i c s).2.reviews := by
  cases hstars : phas "stars" c with
  | false => simpa [edit_review, hstars] using h
  | true =>
    cases hr : dsGet i s.reviews with
    | none => simpa [edit_review, hstars, hr] using h
    | some r0 =>
      have hres : (edit_review i c s).2.reviews =
          dsPut i (applyReviewEdit c r0) s.reviews := by
        simp [edit_review, hstars, hr]
      rw [hres]
      refine distinctPairs_dsPut h ?_
      intro q hq hqi hc
      have hne : (i, r0) ≠ q := fun hEq => hqi (by rw [← hEq])
      have hrel := (List.Pairwise.forall distinctPairs_symm h)
        (mem_of_dsGet hr) hq hne
      exact hrel ⟨(applyReviewEdit_user_id c r0 ▸ hc.1).symm,
        (applyReviewEdit_business_id c r0 ▸ hc.2).symm⟩

theorem distinctPairs_delete_review (i : Int) {s : Store}
    (h : distinctPairs s.reviews) : distinctPairs (delete_review i s).2.reviews := by
  cases hr : dsGet i s.reviews with
  | none => simpa [delete_review, hr] using h
  | some r =>
    have hres : (delete_review i s).2.reviews = dsDelete i s.reviews := by
      simp [delete_review, hr]
    rw [hres]
    exact h.sublist (dsDelete_sublist i s.reviews)

/-- The datastore states reachable by running the service's operations
sequentially from the empty store, with arbitrary request bodies and ids. -/
inductive Reachable : Store → Prop where
  | empty : Reachable Store.empty
  | createBusiness {s : Store} (c : Payload) :
      Reachable s → Reachable (create_business c s).2
  | getBusiness {s : Store} (i : Int) :
      Reachable s → Reachable (get_business i s).2
  | editBusiness {s : Store} (i : Int) (c : Payload) :
      Reachable s → Reachable (edit_business i c s).2
  | deleteBusiness {s : Store} (i : Int) :
      Reachable s → Reachable (delete_business i s).2
  | createReview {s : Store} (c : Payload) :
      Reachable s → Reachable (create_review c s).2
  | getReview {s : Store} (i : Int) :
      Reachable s → Reachable (get_review i s).2
  | editReview {s : Store} (i : Int) (c : Payload) :
      Reachable s → Reachable (edit_review i c s).2
  | deleteReview {s : Store} (i : Int) :
      Reachable s → Reachable (delete_review i s).2

theorem reachable_distinctPairs {s : Store} (h : Reachable s) :
    distinctPairs s.reviews := by
  induction h with
  | empty => exact List.Pairwise.nil
  | createBusiness c _ ih => exact distinctPairs_create_business c ih
  | getBusiness i _ ih => exact distinctPairs_get_business i ih
  | editBusiness i c _ ih => exact distinctPairs_edit_business i c ih
  | deleteBusiness i _ ih => exact distinctPairs_delete_business i ih
  | createReview c _ ih => exact distinctPairs_create_review c ih
  | getReview i _ ih => exact distinctPairs_get_review i ih
  | editReview i c _ ih => exact distinctPairs_edit_review i c ih
  | deleteReview i _ ih => exact distinctPairs_delete_review i ih

theorem distinctPairs_filter_le (l : List (Int × Review)) (u b : JVal)
    (h : distinctPairs l) :
    (l.filter (fun p => p.2.user_id = u ∧ p.2.business_id = b)).length ≤ 1 := by
  induction l with
  | nil => simp
  | cons p rest ih =>
    rw [distinctPairs, List.pairwise_cons] at h
    obtain ⟨hp, hrest⟩ := h
    by_cases hm : p.2.user_id = u ∧ p.2.business_id = b
    · have hnil : rest.filter (fun q => q.2.user_id = u ∧ q.2.business_id = b) = [] := by
        rw [List.filter_eq_nil_iff]
        intro q hq
        simp only [decide_eq_true_eq]
        intro hcq
        exact hp q hq ⟨hm.1.trans hcq.1.symm, hm.2.trans hcq.2.symm⟩
      have hone : (p :: rest).filter
          (fun q => q.2.user_id = u ∧ q.2.business_id = b) = [p] := by
        rw [List.filter_cons, hnil]
        simp [hm.1, hm.2]
      rw [hone]
      simp
    · simpa [List.filter_cons, hm] using ih hrest

/-- C2: in every store reachable by sequential execution of the operations
from the empty store, at most one Review is stored for any given
(`user_id`, `business_id`) pair. -/
theorem review_pair_unique (s : Store) (hs : Reachable s) (u b : JVal) :
    (matchingReviews u b s).length ≤ 1 :=
  distinctPairs_filter_le s.reviews u b (reachable_distinctPairs hs)

/-- A fully valid Business create body used by the C2 witness. -/
def c2BizPayload : Payload :=
  [("owner_id", .num 1), ("name", .str "n"), ("street_address", .str "a"),
   ("city", .str "c"), ("state", .str "s"), ("zip_code", .str "z")]

/-- A Review create body used by the C2 witness. -/
def c2RevPayload : Payload :=
  [("user_id", .num 9), ("business_id", .num 1), ("stars", .num 5)]

theorem review_pair_unique_witness :
    (matchingReviews (.num 9) (.num 1)
      (create_review c2RevPayload (create_business c2BizPayload Store.empty).2).2).length ≤ 1 :=
  review_pair_unique _
    (Reachable.createReview c2RevPayload
      (Reachable.createBusiness c2BizPayload Reachable.empty))
    (.num 9) (.num 1)

end RecordService
